import Mathlib

/-!
Shallow embedding of the Adaptive Hybrid Ranking pipeline of the
api-recommendation-backend repository: the retrieval-output adapter
(backend/pipeline.py, function _normalize_retriever_output), the intent
weight resolver and hybrid scorer (ranking/dynamic_ranker.py), and the
ask-mode orchestration (backend/pipeline.py, run_ask_pipeline).

Numbers are modeled by the rationals: the source computes with IEEE
doubles, and every claim treated here is about exact real-valued
arithmetic facts (ordering, ranges, sums), so the rational model is the
intended real semantics of the float code. Values flowing through
candidate records are modeled by a small dynamic value type.
-/

/- Batteries marks the arithmetic of ℚ irreducible, which blocks `decide`
on closed rational facts; restoring the default reducibility lets the
evaluation proofs below run with the standard literal fast paths. -/
set_option allowUnsafeReducibility true
attribute [semireducible] Rat.mul Rat.add Rat.sub Rat.inv

set_option maxRecDepth 8000

namespace ApiRec

/-- A dynamically typed scalar value stored in a candidate record:
Python None, a number (int or float, both modeled as a rational), or a
string. -/
inductive Val : Type where
  | none : Val
  | num : ℚ → Val
  | str : String → Val
deriving DecidableEq

/-- A candidate record: a Python dict modeled as an association list
(Python dicts preserve insertion order). -/
abbrev Record := List (String × Val)

/-- Python dict lookup `md[k]` / key test, as an Option. -/
def Record.get? (md : Record) (k : String) : Option Val :=
  (md.find? (fun kv => kv.1 == k)).map Prod.snd

/-- Python `md.get(k)`: a missing key yields None. -/
def Record.getV (md : Record) (k : String) : Val :=
  (Record.get? md k).getD Val.none

/-- Python truthiness of a Val (None and 0 and the empty string are falsy). -/
def Val.truthy : Val → Bool
  | Val.none => false
  | Val.num q => decide (q ≠ 0)
  | Val.str s => decide (s ≠ "")

/-- Python `a or b` on values. -/
def pyOr (a b : Val) : Val := if a.truthy then a else b

/-- Python str.strip() on a character list: whitespace removed from both
ends. -/
def trimChars (cs : List Char) : List Char :=
  ((cs.dropWhile Char.isWhitespace).reverse.dropWhile Char.isWhitespace).reverse

/-- Value of a nonempty all-digit character list, if it is one. -/
def digitsVal : List Char → Option ℕ
  | [] => Option.none
  | l => l.foldlM (fun acc c => if c.isDigit then some (acc * 10 + (c.toNat - 48)) else Option.none) 0

/-- Python float() on a plain decimal numeral string (optional sign,
integer part, optional fractional part). Exponent, infinity and nan
spellings are not modeled and report failure; every call site of
float() in the source catches the failure, so the unmodeled spellings
only ever select the same fallback branch an unparseable string does. -/
def parseDecimal? (s : String) : Option ℚ :=
  let cs := trimChars s.toList
  let sgn : ℚ := if cs.head? = some '-' then -1 else 1
  let cs := match cs with
    | '-' :: rest => rest
    | '+' :: rest => rest
    | cs => cs
  match cs.splitOn '.' with
  | [ip] => (digitsVal ip).map (fun n => sgn * n)
  | [ip, fp] =>
    if ip.isEmpty && fp.isEmpty then Option.none
    else do
      let i ← if ip.isEmpty then some 0 else digitsVal ip
      let f ← if fp.isEmpty then some 0 else digitsVal fp
      some (sgn * ((i : ℚ) + (f : ℚ) / (10 : ℚ) ^ fp.length))
  | _ => Option.none

/-- Python float(v) on a record value: numbers pass through, strings are
parsed, everything else (None in particular) fails with an exception
that every call site catches. -/
def pyFloat? : Val → Option ℚ
  | Val.none => Option.none
  | Val.num q => some q
  | Val.str s => parseDecimal? s

/-- Python str(v), as used only for the description-length quality
heuristic. The rendering of a number approximates the float repr; no
claim depends on its exact spelling, only on the length of the actual
description strings. -/
def Val.pyStr : Val → String
  | Val.none => "None"
  | Val.str s => s
  | Val.num q => if q.den = 1 then toString q.num ++ ".0" else toString q

/-- Field candidate lists of ranking/dynamic_ranker.py. -/
def docQualityCandidates : List String := ["doc_quality", "quality", "score", "rating", "stars"]

def popularityCandidates : List String :=
  ["popularity", "usage_count", "uses", "downloads", "stars", "forks"]

def recencyCandidates : List String :=
  ["last_updated", "updated_at", "modified", "last_modified", "updated"]

/-- _get_field_safe: first candidate key present with a non-None value. -/
def getFieldSafe (item : Record) : List String → Val
  | [] => Val.none
  | k :: ks =>
    match Record.get? item k with
    | some v => if v = Val.none then getFieldSafe item ks else v
    | Option.none => getFieldSafe item ks

/-- Day number of a proleptic Gregorian date counted from the Unix epoch
1970-01-01 (the classical days-from-civil computation). Only evaluated on
in-range dates by the date parser below. -/
def daysFromCivil (y : ℤ) (m d : ℕ) : ℤ :=
  let yAdj : ℤ := if m ≤ 2 then y - 1 else y
  let era : ℤ := (if 0 ≤ yAdj then yAdj else yAdj - 399) / 400
  let yoe : ℤ := yAdj - era * 400
  let mp : ℤ := ((m : ℤ) + 9) % 12
  let doy : ℤ := (153 * mp + 2) / 5 + (d : ℤ) - 1
  let doe : ℤ := yoe * 365 + yoe / 4 - yoe / 100 + doy
  era * 146097 + doe - 719468

/-- A dashed date string parsed against the strptime formats of
_parse_date_to_epoch: "%Y-%m-%d" is tried before "%d-%m-%Y", and the
timestamp is taken in UTC (epoch seconds at midnight). -/
def parseDashDate? (s : String) : Option ℚ :=
  match (s.toList.splitOn '-').map digitsVal with
  | [some a, some b, some c] =>
    let parts := s.toList.splitOn '-'
    let lenA := (parts.getD 0 []).length
    let lenC := (parts.getD 2 []).length
    let mk : ℕ → ℕ → ℕ → Option ℚ := fun y m d =>
      if 1 ≤ m ∧ m ≤ 12 ∧ 1 ≤ d ∧ d ≤ 31 then
        some ((daysFromCivil (y : ℤ) m d : ℚ) * 86400)
      else Option.none
    if lenA = 4 then mk a b c
    else if lenC = 4 then mk c b a
    else Option.none
  | _ => Option.none

/-- _parse_date_to_epoch: None maps to 0.0, numbers pass through, strings
are parsed (dashed dates modeled; the time-of-day formats and
fromisoformat fall back to 0.0 here, exactly the fallback the source
takes on any unparseable string — no claim depends on those formats). -/
def parseDateToEpoch : Val → ℚ
  | Val.none => 0
  | Val.num q => q
  | Val.str s => (parseDashDate? (String.mk (trimChars s.toList))).getD 0

/-- Relative tolerance of math.isclose (default rel_tol=1e-9). -/
def relTol : ℚ := 1 / 1000000000

/-- math.isclose with default tolerances (abs_tol=0.0). -/
def isclose (a b : ℚ) : Bool := decide (|a - b| ≤ relTol * max |a| |b|)

/-- _minmax_normalize from ranking/dynamic_ranker.py. -/
def minmaxNormalize (values : List ℚ) : List ℚ :=
  match values with
  | [] => []
  | v :: vs =>
    let lo := vs.foldl min v
    let hi := vs.foldl max v
    if isclose hi lo then values.map (fun _ => 1 / 2)
    else values.map (fun x => (x - lo) / (hi - lo))

/-- A weight dict: ordered association list from signal name to weight. -/
abbrev WeightDict := List (String × ℚ)

def recommendW : WeightDict :=
  [("similarity", 4), ("doc_quality", 3), ("recency", 1), ("popularity", 2)]

def latestW : WeightDict :=
  [("similarity", 2), ("doc_quality", 1), ("recency", 5), ("popularity", 1)]

def popularW : WeightDict :=
  [("similarity", 5 / 2), ("doc_quality", 3 / 2), ("recency", 1), ("popularity", 5)]

def reliableW : WeightDict :=
  [("similarity", 3), ("doc_quality", 5), ("recency", 1), ("popularity", 1)]

def defaultW : WeightDict :=
  [("similarity", 4), ("doc_quality", 3), ("recency", 1), ("popularity", 2)]

/-- _INTENT_WEIGHTS table. -/
def intentWeights : List (String × WeightDict) :=
  [("recommend", recommendW), ("latest", latestW), ("popular", popularW),
   ("reliable", reliableW), ("default", defaultW)]

/-- _normalize_weights: divide by the sum (a zero sum is replaced by 1.0
through the `or 1.0` guard). -/
def normalizeWeights (raw : WeightDict) : WeightDict :=
  let s0 := (raw.map Prod.snd).sum
  let s := if s0 = 0 then 1 else s0
  raw.map (fun kv => (kv.1, kv.2 / s))

/-- List-of-chars prefix test, auxiliary for the substring test. -/
def listStartsWith : List Char → List Char → Bool
  | [], _ => true
  | _ :: _, [] => false
  | a :: as, b :: bs => a == b && listStartsWith as bs

/-- Substring occurrence on char lists. -/
def listContainsSub : List Char → List Char → Bool
  | pat, [] => pat.isEmpty
  | pat, c :: rest => listStartsWith pat (c :: rest) || listContainsSub pat rest

/-- The Python `pat in s` substring operator. -/
def strContains (s pat : String) : Bool := listContainsSub pat.toList s.toList

/-- The canonicalized intent label `(intent or "").strip().lower()`
(strip and lower over the ASCII range, which covers every intent label
and table key involved). -/
def canonicalIntent (intent : Option String) : String :=
  String.mk ((trimChars (intent.getD "").toList).map Char.toLower)

/-- compute_dynamic_weights from ranking/dynamic_ranker.py. -/
def computeDynamicWeights (intent : Option String) : WeightDict :=
  let intentL := canonicalIntent intent
  let base :=
    match intentWeights.lookup intentL with
    | some b => b
    | Option.none =>
      if strContains intentL "latest" then latestW
      else if strContains intentL "popular" || strContains intentL "trend" then popularW
      else if strContains intentL "reliab" || strContains intentL "quality"
              || strContains intentL "reliable" then reliableW
      else if strContains intentL "recommend" || intentL = "" then recommendW
      else defaultW
  normalizeWeights base

/-- Python round(x, 6) on the rational model: round to the nearest
integer with ties to even (the float model additionally quantizes in
binary; the claims treated here do not hinge on that quantization). -/
def roundHalfEven (q : ℚ) : ℤ :=
  let f := ⌊q⌋
  let r := q - f
  if r < 1 / 2 then f
  else if 1 / 2 < r then f + 1
  else if f % 2 = 0 then f else f + 1

def round6 (q : ℚ) : ℚ := ((roundHalfEven (q * 1000000) : ℚ)) / 1000000

/-- One entry of the ranked list built by score_documents. -/
structure RankedDoc where
  id : Val
  similarity : ℚ
  doc_quality : ℚ
  recency : ℚ
  popularity : ℚ
  hybrid_score : ℚ
  metadata : Record
deriving DecidableEq

/-- Output dict of score_documents. -/
structure RankOutput where
  weights : WeightDict
  ranked : List RankedDoc
deriving DecidableEq

/-- weights.get(k, 0.0). -/
def wGet (w : WeightDict) (k : String) : ℚ := (w.lookup k).getD 0

/-- metadata_list[i] if i < len(metadata_list) else an empty dict. -/
def mdAt (mds : List Record) (i : ℕ) : Record := mds.getD i []

/-- Raw doc-quality signal of one record: the prioritized field lookup
coerced by float(), falling back to the description-length heuristic
min(5.0, max(0.0, len(str(desc)) / 200.0)). -/
def rawQuality (md : Record) : ℚ :=
  match pyFloat? (getFieldSafe md docQualityCandidates) with
  | some qf => qf
  | Option.none =>
    let desc := pyOr (pyOr (Record.getV md "description") (Record.getV md "summary")) (Val.str "")
    min 5 (max 0 ((desc.pyStr.length : ℚ) / 200))

/-- Raw popularity signal: float() of the prioritized field, 0.0 on a
missing field or a conversion failure. -/
def rawPop (md : Record) : ℚ := (pyFloat? (getFieldSafe md popularityCandidates)).getD 0

/-- Raw recency signal: epoch seconds of the prioritized date field. -/
def rawRecency (md : Record) : ℚ := parseDateToEpoch (getFieldSafe md recencyCandidates)

/-- Similarity pre-normalization: float() with 0.0 fallback, then values
in [-1,1] are mapped by `(v+1)/2 if v<0 else v` and clamped to [0,1],
while out-of-range values pass through unchanged. -/
def simPre (s : Val) : ℚ :=
  let sv := (pyFloat? s).getD 0
  if sv < -1 ∨ 1 < sv then sv
  else max 0 (min 1 (if sv < 0 then (sv + 1) / 2 else sv))

/-- The candidate list built by the main loop of score_documents, in
input order, before the final sort. -/
def preRanked (mds : List Record) (sims : List Val) (intent : Option String) : List RankedDoc :=
  let n := max mds.length sims.length
  let rawSim := sims ++ List.replicate (n - sims.length) (Val.num 0)
  let simNorm := minmaxNormalize (rawSim.map simPre)
  let qNorm := minmaxNormalize ((List.range n).map (fun i => rawQuality (mdAt mds i)))
  let popNorm := minmaxNormalize ((List.range n).map (fun i => rawPop (mdAt mds i)))
  let recNorm := minmaxNormalize ((List.range n).map (fun i => rawRecency (mdAt mds i)))
  let weights := computeDynamicWeights intent
  (List.range n).map (fun i =>
    let md := mdAt mds i
    let hybrid :=
      wGet weights "similarity" * simNorm.getD i 0
        + wGet weights "doc_quality" * qNorm.getD i 0
        + wGet weights "recency" * recNorm.getD i 0
        + wGet weights "popularity" * popNorm.getD i 0
    { id := pyOr (pyOr (pyOr (Record.getV md "id") (Record.getV md "doc_id"))
          (Record.getV md "api_id")) (Val.str ("doc_" ++ toString i)),
      similarity := round6 (simNorm.getD i 0),
      doc_quality := round6 (qNorm.getD i 0),
      recency := round6 (recNorm.getD i 0),
      popularity := round6 (popNorm.getD i 0),
      hybrid_score := round6 hybrid,
      metadata := md })

/-- The sort key relation of `sorted(ranked, key=hybrid_score,
reverse=True)`: a stable sort into descending hybrid_score order. -/
def docGE (a b : RankedDoc) : Prop := b.hybrid_score ≤ a.hybrid_score

instance : DecidableRel docGE :=
  fun a b => inferInstanceAs (Decidable (b.hybrid_score ≤ a.hybrid_score))

instance : IsTotal RankedDoc docGE :=
  ⟨fun a b => (le_total b.hybrid_score a.hybrid_score).imp (fun h => h) (fun h => h)⟩

instance : IsTrans RankedDoc docGE := ⟨fun _ _ _ h1 h2 => le_trans h2 h1⟩

/-- score_documents from ranking/dynamic_ranker.py. The CPython sort is
a stable sort; with reverse=True it produces the unique permutation that
is descending in the key and keeps key-equal elements in input order,
which is what the stable insertion sort below computes. On the embedded
value domain (records with None/number/string fields) none of the
internally caught conversions can escape, so the function is total and
the re-raise branch of the source has no model counterpart. -/
def scoreDocuments (mds : List Record) (sims : List Val) (intent : Option String) : RankOutput :=
  let n := max mds.length sims.length
  if n = 0 then { weights := computeDynamicWeights intent, ranked := [] }
  else { weights := computeDynamicWeights intent,
         ranked := List.insertionSort docGE (preRanked mds sims intent) }

/-- A Python value at the retriever-output boundary, one constructor per
shape _normalize_retriever_output discriminates on: None, non-iterable
scalars (ints and floats), strings, lists, tuples, and dicts (a dict is
carried by its key sequence, the only part iteration exposes). -/
inductive PyVal : Type where
  | none : PyVal
  | int : ℤ → PyVal
  | float : ℚ → PyVal
  | str : String → PyVal
  | list : List PyVal → PyVal
  | tuple : List PyVal → PyVal
  | dict : List String → PyVal

/-- Python list(x): materializes any iterable (a tuple, a string as its
characters, a dict as its keys) and raises TypeError on non-iterables. -/
def pyToList : PyVal → Option (List PyVal)
  | PyVal.list xs => some xs
  | PyVal.tuple xs => some xs
  | PyVal.str s => some (s.toList.map (fun c => PyVal.str (String.singleton c)))
  | PyVal.dict ks => some (ks.map PyVal.str)
  | PyVal.none => Option.none
  | PyVal.int _ => Option.none
  | PyVal.float _ => Option.none

/-- One slot of an unpacked two-element retriever output: `if v is None:
v = []`, then `if not isinstance(v, list): v = list(v)` — the latter
raises TypeError when v is not iterable. -/
def slotToList (v : PyVal) : Except String (List PyVal)
  := match v with
  | PyVal.none => Except.ok []
  | PyVal.list xs => Except.ok xs
  | v =>
    match pyToList v with
    | some xs => Except.ok xs
    | Option.none => Except.error "TypeError: object is not iterable"

/-- _normalize_retriever_output from backend/pipeline.py. -/
def normalizeRetrieverOutput : PyVal → Except String (List PyVal × List PyVal)
  | PyVal.none => Except.ok ([], [])
  | PyVal.tuple [m, s] =>
    match slotToList m, slotToList s with
    | Except.ok ms, Except.ok ss => Except.ok (ms, ss)
    | Except.error e, _ => Except.error e
    | _, Except.error e => Except.error e
  | PyVal.list [m, s] =>
    match slotToList m, slotToList s with
    | Except.ok ms, Except.ok ss => Except.ok (ms, ss)
    | Except.error e, _ => Except.error e
    | _, Except.error e => Except.error e
  | PyVal.list xs => Except.ok (xs, [])
  | _ => Except.ok ([], [])

/-- The {code, message} error object of the response envelope. -/
structure ErrorInfo where
  code : String
  message : String
deriving DecidableEq

/-- A materialized DocumentResult (backend/schemas.py). -/
structure DocumentResult where
  id : String
  similarity : ℚ
  doc_quality : ℚ
  recency : ℚ
  popularity : ℚ
  hybrid_score : ℚ
  metadata : Record
deriving DecidableEq

/-- _docresult_from_dict applied to a ranked entry. On a RankedDoc every
numeric field is present, so the `or 0.0` defaulting is the identity on
the stored numbers; the id slot applies the truthiness chain over the
"id"/"doc_id"/"api_id" keys, of which only "id" exists on a RankedDoc. -/
def docresultFromDict (d : RankedDoc) : DocumentResult :=
  { id := if d.id.truthy then d.id.pyStr else "unknown",
    similarity := d.similarity,
    doc_quality := d.doc_quality,
    recency := d.recency,
    popularity := d.popularity,
    hybrid_score := d.hybrid_score,
    metadata := d.metadata }

/-- Payload of an ask-mode response: answer text, optional
(document, excerpt) source, optional explanation text. The wall-clock
timing sub-dict carries no ranking content and is not modeled. -/
structure AskPayload where
  answer : String
  source : Option (DocumentResult × String)
  explanation : Option String
deriving DecidableEq

/-- The ask-mode response envelope (backend/schemas.py AskResponse). -/
structure AskResponse where
  request_id : String
  status : String
  error : Option ErrorInfo
  payload : AskPayload
deriving DecidableEq

/-- run_ask_pipeline from backend/pipeline.py, from the point the
retrieval stage has produced its outcome. The external semantic_retrieve
call composed with _normalize_retriever_output is abstracted as an
Except value (the retriever is an out-of-scope collaborator); the
explanation generator is likewise passed in as a fallible function. On
the embedded value domain score_documents is total, so the source branch
that converts a ranker exception into RANKER_ERROR has no model
counterpart. explain_top_result in rag/composer.py always returns a
string, so the isinstance(explanation, dict) excerpt branch collapses to
the empty excerpt. -/
def runAskPipeline (requestId : String)
    (retrieval : Except String (List Record × List Val))
    (intent : Option String)
    (explainTop : RankedDoc → Except String String) : AskResponse :=
  match retrieval with
  | Except.error e =>
    { request_id := requestId, status := "error",
      error := some { code := "RETRIEVER_ERROR", message := e },
      payload := { answer := "", source := Option.none, explanation := Option.none } }
  | Except.ok (mds, sims) =>
    let rankOut := scoreDocuments mds sims intent
    match rankOut.ranked with
    | [] =>
      { request_id := requestId, status := "ok", error := Option.none,
        payload := { answer := "No relevant results found.",
                     source := Option.none, explanation := Option.none } }
    | top :: _ =>
      let explanation :=
        match explainTop top with
        | Except.ok s => s
        | Except.error e => e
      let topDoc := docresultFromDict top
      { request_id := requestId, status := "ok", error := Option.none,
        payload := { answer := explanation,
                     source := some (topDoc, ""),
                     explanation := some explanation } }

/-- The two concrete records of the C6 ranking scenario. -/
def recA : Record :=
  [("id", Val.str "a"), ("doc_quality", Val.num 1), ("popularity", Val.num 0),
   ("last_updated", Val.str "2024-01-01")]

def recB : Record :=
  [("id", Val.str "b"), ("doc_quality", Val.num 0), ("popularity", Val.num 1),
   ("last_updated", Val.str "2024-01-01")]

/-- The intent is unrecognized or empty: the canonical label is the
empty string, or it is no table key and contains none of the substring
heuristics of the resolver. -/
def unrecognizedIntent (intent : Option String) : Prop :=
  canonicalIntent intent = "" ∨
    (intentWeights.lookup (canonicalIntent intent) = Option.none ∧
     strContains (canonicalIntent intent) "latest" = false ∧
     strContains (canonicalIntent intent) "popular" = false ∧
     strContains (canonicalIntent intent) "trend" = false ∧
     strContains (canonicalIntent intent) "reliab" = false ∧
     strContains (canonicalIntent intent) "quality" = false ∧
     strContains (canonicalIntent intent) "reliable" = false ∧
     strContains (canonicalIntent intent) "recommend" = false)

instance (intent : Option String) : Decidable (unrecognizedIntent intent) := by
  unfold unrecognizedIntent
  exact inferInstance

/-! ## Theorems -/

theorem foldl_min_le (vs : List ℚ) (a : ℚ) :
    vs.foldl min a ≤ a ∧ ∀ x ∈ vs, vs.foldl min a ≤ x := by
  induction vs generalizing a with
  | nil => exact ⟨le_refl a, by simp⟩
  | cons y ys ih =>
    simp only [List.foldl_cons]
    refine ⟨le_trans (ih (min a y)).1 (min_le_left a y), ?_⟩
    intro x hx
    rcases List.mem_cons.mp hx with rfl | hx
    · exact le_trans (ih (min a x)).1 (min_le_right a x)
    · exact (ih (min a y)).2 x hx

theorem le_foldl_max (vs : List ℚ) (a : ℚ) :
    a ≤ vs.foldl max a ∧ ∀ x ∈ vs, x ≤ vs.foldl max a := by
  induction vs generalizing a with
  | nil => exact ⟨le_refl a, by simp⟩
  | cons y ys ih =>
    simp only [List.foldl_cons]
    refine ⟨le_trans (le_max_left a y) (ih (max a y)).1, ?_⟩
    intro x hx
    rcases List.mem_cons.mp hx with rfl | hx
    · exact le_trans (le_max_right a x) (ih (max a x)).1
    · exact (ih (max a y)).2 x hx

theorem le_foldl_min (vs : List ℚ) (a c : ℚ) (ha : c ≤ a) (h : ∀ x ∈ vs, c ≤ x) :
    c ≤ vs.foldl min a := by
  induction vs generalizing a with
  | nil => exact ha
  | cons y ys ih =>
    simp only [List.foldl_cons]
    exact ih (min a y) (le_min ha (h y (List.mem_cons_self y ys)))
      (fun x hx => h x (List.mem_cons_of_mem y hx))

theorem foldl_max_le (vs : List ℚ) (a c : ℚ) (ha : a ≤ c) (h : ∀ x ∈ vs, x ≤ c) :
    vs.foldl max a ≤ c := by
  induction vs generalizing a with
  | nil => exact ha
  | cons y ys ih =>
    simp only [List.foldl_cons]
    exact ih (max a y) (max_le ha (h y (List.mem_cons_self y ys)))
      (fun x hx => h x (List.mem_cons_of_mem y hx))

theorem filter_orderedInsert (q : ℚ) (x : RankedDoc) (l : List RankedDoc) :
    (List.orderedInsert docGE x l).filter (fun d => decide (d.hybrid_score = q))
      = if x.hybrid_score = q
        then x :: l.filter (fun d => decide (d.hybrid_score = q))
        else l.filter (fun d => decide (d.hybrid_score = q)) := by
  induction l with
  | nil =>
    simp only [List.orderedInsert_nil, List.filter_cons, List.filter_nil]
    split <;> simp_all
  | cons y ys ih =>
    by_cases hxy : docGE x y
    · rw [List.orderedInsert_of_le _ _ hxy]
      simp only [List.filter_cons]
      split <;> simp_all
    · have hne : x.hybrid_score < y.hybrid_score := lt_of_not_le hxy
      have hstep : List.orderedInsert docGE x (y :: ys) = y :: List.orderedInsert docGE x ys := by
        simp [List.orderedInsert, hxy]
      rw [hstep, List.filter_cons, ih, List.filter_cons]
      by_cases hx : x.hybrid_score = q <;> by_cases hy : y.hybrid_score = q <;> simp_all

theorem filter_insertionSort (q : ℚ) (l : List RankedDoc) :
    (List.insertionSort docGE l).filter (fun d => decide (d.hybrid_score = q))
      = l.filter (fun d => decide (d.hybrid_score = q)) := by
  induction l with
  | nil => rfl
  | cons a l ih =>
    show (List.orderedInsert docGE a (List.insertionSort docGE l)).filter _ = _
    rw [filter_orderedInsert, ih, List.filter_cons]
    by_cases h : a.hybrid_score = q <;> simp [h]

theorem preRanked_length (mds : List Record) (sims : List Val) (intent : Option String) :
    (preRanked mds sims intent).length = max mds.length sims.length := by
  simp [preRanked]

/-- C1: on every input batch, the ranked list returned by score_documents
is sorted by hybrid_score in descending order, and for every score value
the ranked entries carrying it appear in exactly the input-candidate
order (the stable tie-break): filtering the ranked list to one
hybrid_score yields the same sequence as filtering the pre-sort candidate
list built in input order. -/
theorem scoreDocuments_sorted_and_stable (mds : List Record) (sims : List Val)
    (intent : Option String) :
    List.Pairwise (fun a b => b.hybrid_score ≤ a.hybrid_score)
      (scoreDocuments mds sims intent).ranked ∧
    ∀ q : ℚ,
      (scoreDocuments mds sims intent).ranked.filter (fun d => decide (d.hybrid_score = q))
        = (preRanked mds sims intent).filter (fun d => decide (d.hybrid_score = q)) := by
  constructor
  · simp only [scoreDocuments]
    split
    · simp
    · exact List.sorted_insertionSort docGE (preRanked mds sims intent)
  · intro q
    simp only [scoreDocuments]
    split
    · rename_i h
      have hpre : preRanked mds sims intent = [] := by
        simp [preRanked, h]
      simp [hpre]
    · exact filter_insertionSort q (preRanked mds sims intent)

/-- C2: the ranked list returned by score_documents always has length
max(len(records), len(scores)) — the shorter side is padded, no
candidate is dropped (stated for all batches; the non-empty batches of
the claim are a special case). -/
theorem scoreDocuments_ranked_length (mds : List Record) (sims : List Val)
    (intent : Option String) :
    (scoreDocuments mds sims intent).ranked.length = max mds.length sims.length := by
  simp only [scoreDocuments]
  split
  · rename_i h
    simp [h.symm]
  · simp [List.length_insertionSort, preRanked_length]

/-- C3: on every non-empty batch, every value produced by the min-max
normalizer lies in [0,1], and when all raw values of the batch are equal
every normalized value is exactly 1/2. -/
theorem minmaxNormalize_bounds_and_midpoint (values : List ℚ) (hne : values ≠ []) :
    (∀ x ∈ minmaxNormalize values, 0 ≤ x ∧ x ≤ 1) ∧
    ((∀ a ∈ values, ∀ b ∈ values, a = b) → ∀ x ∈ minmaxNormalize values, x = 1 / 2) := by
  match values, hne with
  | v :: vs, _ =>
    constructor
    · intro x hx
      simp only [minmaxNormalize] at hx
      by_cases hcl : isclose (vs.foldl max v) (vs.foldl min v)
      · simp only [hcl, if_pos] at hx
        rcases List.mem_map.mp hx with ⟨w, _, rfl⟩
        norm_num
      · simp only [hcl, if_neg, Bool.false_eq_true, not_false_eq_true] at hx
        rcases List.mem_map.mp hx with ⟨w, hw, rfl⟩
        have hlow : vs.foldl min v ≤ w := by
          rcases List.mem_cons.mp hw with rfl | hw
          · exact (foldl_min_le vs w).1
          · exact (foldl_min_le vs v).2 w hw
        have hhigh : w ≤ vs.foldl max v := by
          rcases List.mem_cons.mp hw with rfl | hw
          · exact (le_foldl_max vs w).1
          · exact (le_foldl_max vs v).2 w hw
        have hlt : vs.foldl min v < vs.foldl max v := by
          rcases lt_or_eq_of_le (le_trans (foldl_min_le vs v).1 (le_foldl_max vs v).1) with h | h
          · exact h
          · exfalso
            apply hcl
            simp only [isclose, h, sub_self, abs_zero, decide_eq_true_eq]
            exact mul_nonneg (by norm_num [relTol]) (le_trans (abs_nonneg _) (le_max_left _ _))
        constructor
        · exact div_nonneg (sub_nonneg.mpr hlow) (le_of_lt (sub_pos.mpr hlt))
        · rw [div_le_one (sub_pos.mpr hlt)]
          exact sub_le_sub_right hhigh _
    · intro hall x hx
      have hvs : ∀ y ∈ vs, y = v :=
        fun y hy => hall y (List.mem_cons_of_mem v hy) v (List.mem_cons_self v vs)
      have hlo : vs.foldl min v = v :=
        le_antisymm (foldl_min_le vs v).1
          (le_foldl_min vs v v (le_refl v) (fun y hy => ge_of_eq (hvs y hy)))
      have hhi : vs.foldl max v = v :=
        le_antisymm (foldl_max_le vs v v (le_refl v) (fun y hy => le_of_eq (hvs y hy)))
          (le_foldl_max vs v).1
      have hcl : isclose (vs.foldl max v) (vs.foldl min v) = true := by
        simp only [isclose, hlo, hhi, sub_self, abs_zero, decide_eq_true_eq]
        exact mul_nonneg (by norm_num [relTol]) (le_trans (abs_nonneg _) (le_max_left _ _))
      simp only [minmaxNormalize, hcl, if_pos] at hx
      rcases List.mem_map.mp hx with ⟨w, _, rfl⟩
      rfl

/-- Witness for C3 at the concrete batch [2, 2]. -/
theorem minmaxNormalize_witness :
    (([2, 2] : List ℚ) ≠ [] ∧ ∀ a ∈ ([2, 2] : List ℚ), ∀ b ∈ ([2, 2] : List ℚ), a = b) ∧
    (∀ x ∈ minmaxNormalize [2, 2], 0 ≤ x ∧ x ≤ 1) ∧
    (∀ x ∈ minmaxNormalize [2, 2], x = 1 / 2) :=
  ⟨⟨by decide, by decide⟩,
    (minmaxNormalize_bounds_and_midpoint [2, 2] (by decide)).1,
    (minmaxNormalize_bounds_and_midpoint [2, 2] (by decide)).2 (by decide)⟩

theorem computeDynamicWeights_cases (intent : Option String) :
    computeDynamicWeights intent = normalizeWeights recommendW ∨
    computeDynamicWeights intent = normalizeWeights latestW ∨
    computeDynamicWeights intent = normalizeWeights popularW ∨
    computeDynamicWeights intent = normalizeWeights reliableW ∨
    computeDynamicWeights intent = normalizeWeights defaultW := by
  unfold computeDynamicWeights
  rcases hl : List.lookup (canonicalIntent intent) intentWeights with _ | b
  · simp only [hl]
    split_ifs <;> tauto
  · have hb : b = recommendW ∨ b = latestW ∨ b = popularW ∨ b = reliableW ∨ b = defaultW := by
      simp only [intentWeights, List.lookup] at hl
      repeat' split at hl
      all_goals simp_all
    simp only [hl]
    rcases hb with rfl | rfl | rfl | rfl | rfl <;> tauto

/-- C4: for every intent argument (None, the empty string, free text),
the resolved weight vector is entrywise non-negative and sums to exactly
1, and an unrecognized or empty intent resolves to the normalized
"recommend" profile. -/
theorem computeDynamicWeights_simplex (intent : Option String) :
    ((∀ kv ∈ computeDynamicWeights intent, 0 ≤ kv.2) ∧
      ((computeDynamicWeights intent).map Prod.snd).sum = 1) ∧
    (unrecognizedIntent intent → computeDynamicWeights intent = normalizeWeights recommendW) := by
  constructor
  · rcases computeDynamicWeights_cases intent with h | h | h | h | h <;>
      rw [h] <;> exact ⟨by decide, by decide⟩
  · intro hu
    rcases hu with he | ⟨hn, h1, h2, h3, h4, h5, h6, h7⟩
    · unfold computeDynamicWeights
      rw [he]
      decide
    · simp only [computeDynamicWeights, hn, h1, h2, h3, h4, h5, h6, h7]
      by_cases hee : canonicalIntent intent = ""
      · simp only [hee]
        decide
      · have hd : (decide (canonicalIntent intent = "")) = false := decide_eq_false hee
        simp only [hd, Bool.or_false, Bool.or_self, Bool.false_eq_true, if_false]
        decide

/-- Witness for C4 at the concrete unrecognized intent "banana". -/
theorem computeDynamicWeights_witness :
    unrecognizedIntent (some "banana") ∧
    computeDynamicWeights (some "banana") = normalizeWeights recommendW :=
  ⟨by decide, (computeDynamicWeights_simplex (some "banana")).2 (by decide)⟩

/-- C5 counterexample: the adapter is not total. On the two-element
output ([], 5) the scores slot is neither None nor a list, so the source
runs list(5), which raises TypeError — contradicting the claim that the
adapter returns a canonical pair for every possible raw output and never
raises. -/
theorem normalizeRetrieverOutput_raises :
    normalizeRetrieverOutput (PyVal.tuple [PyVal.list [], PyVal.int 5])
        = Except.error "TypeError: object is not iterable" ∧
    (normalizeRetrieverOutput (PyVal.tuple [PyVal.list [], PyVal.int 5])).isOk = false :=
  ⟨rfl, rfl⟩

theorem slotToList_error (v : PyVal) (hv : v ≠ PyVal.none) (hit : pyToList v = Option.none) :
    slotToList v = Except.error "TypeError: object is not iterable" := by
  cases v <;> simp_all [slotToList, pyToList]

/-- C5 amended: None maps to ([], []); a two-element tuple or list is
unpacked as (records, scores), a None slot becoming an empty list and a
list slot kept as is, but a slot value that is neither None nor iterable
makes the adapter raise TypeError; a bare list of length other than two
is records-only with empty scores; every other shape (bare tuples of
other lengths, strings, numbers, dicts) maps to ([], []) without
raising. -/
theorem normalizeRetrieverOutput_amended :
    normalizeRetrieverOutput PyVal.none = Except.ok ([], []) ∧
    (∀ ms ss : List PyVal,
      normalizeRetrieverOutput (PyVal.tuple [PyVal.list ms, PyVal.list ss]) = Except.ok (ms, ss) ∧
      normalizeRetrieverOutput (PyVal.tuple [PyVal.none, PyVal.list ss]) = Except.ok ([], ss) ∧
      normalizeRetrieverOutput (PyVal.tuple [PyVal.list ms, PyVal.none]) = Except.ok (ms, [])) ∧
    (∀ m s : PyVal,
      ((m ≠ PyVal.none ∧ pyToList m = Option.none) ∨ (s ≠ PyVal.none ∧ pyToList s = Option.none)) →
        ∃ e, normalizeRetrieverOutput (PyVal.tuple [m, s]) = Except.error e) ∧
    (∀ xs : List PyVal, xs.length ≠ 2 → normalizeRetrieverOutput (PyVal.list xs) = Except.ok (xs, [])) ∧
    (∀ xs : List PyVal, xs.length ≠ 2 → normalizeRetrieverOutput (PyVal.tuple xs) = Except.ok ([], [])) ∧
    (∀ n : ℤ, normalizeRetrieverOutput (PyVal.int n) = Except.ok ([], [])) ∧
    (∀ q : ℚ, normalizeRetrieverOutput (PyVal.float q) = Except.ok ([], [])) ∧
    (∀ s : String, normalizeRetrieverOutput (PyVal.str s) = Except.ok ([], [])) ∧
    (∀ ks : List String, normalizeRetrieverOutput (PyVal.dict ks) = Except.ok ([], [])) := by
  refine ⟨rfl, ?_, ?_, ?_, ?_, fun n => rfl, fun q => rfl, fun s => rfl, fun ks => rfl⟩
  · exact fun ms ss => ⟨rfl, rfl, rfl⟩
  · intro m s h
    rcases h with ⟨hm1, hm2⟩ | ⟨hs1, hs2⟩
    · refine ⟨"TypeError: object is not iterable", ?_⟩
      simp [normalizeRetrieverOutput, slotToList_error m hm1 hm2]
    · rcases hm : slotToList m with e | ms
      · exact ⟨e, by simp [normalizeRetrieverOutput, hm]⟩
      · refine ⟨"TypeError: object is not iterable", ?_⟩
        simp [normalizeRetrieverOutput, hm, slotToList_error s hs1 hs2]
  · intro xs h
    rcases xs with _ | ⟨a, _ | ⟨b, _ | ⟨c, t⟩⟩⟩ <;> first | rfl | simp at h
  · intro xs h
    rcases xs with _ | ⟨a, _ | ⟨b, _ | ⟨c, t⟩⟩⟩ <;> first | rfl | simp at h

/-- Witness for the amended C5, discharging the conditional clauses at
concrete inputs: a non-iterable slot raises, and a one-element bare list
is records-only. -/
theorem normalizeRetrieverOutput_amended_witness :
    (∃ e, normalizeRetrieverOutput (PyVal.tuple [PyVal.int 7, PyVal.none]) = Except.error e) ∧
    normalizeRetrieverOutput (PyVal.list [PyVal.str "x"]) = Except.ok ([PyVal.str "x"], []) ∧
    normalizeRetrieverOutput (PyVal.tuple []) = Except.ok ([], []) :=
  ⟨normalizeRetrieverOutput_amended.2.2.1 (PyVal.int 7) PyVal.none (Or.inl ⟨by simp, rfl⟩),
   normalizeRetrieverOutput_amended.2.2.2.1 [PyVal.str "x"] (by simp),
   normalizeRetrieverOutput_amended.2.2.2.2.1 [] (by simp)⟩

/-- C6: in the popular-intent scenario with two candidates tied on
similarity and recency, the candidate with popularity 1.0 (id "b") is
ranked above the candidate with doc quality 1.0 (id "a"). -/
theorem scoreDocuments_popular_scenario :
    (scoreDocuments [recA, recB] [Val.num (9 / 10), Val.num (9 / 10)]
        (some "popular")).ranked.map RankedDoc.id
      = [Val.str "b", Val.str "a"] := by decide

/-- C7: on the empty batch, score_documents returns an empty ranked list
together with the weight vector resolved for the given intent. -/
theorem scoreDocuments_empty (intent : Option String) :
    scoreDocuments [] [] intent
      = { weights := computeDynamicWeights intent, ranked := [] } := rfl

/-- C10: a bare two-element list handed to the adapter is unpacked as a
(records, scores) pair — exactly like a two-element tuple — rather than
treated as records-only; in particular, a list of exactly two dict
records becomes (keys of the first dict, keys of the second dict), not
two candidates with empty scores. -/
theorem normalizeRetrieverOutput_list_pair :
    (∀ m s : PyVal,
      normalizeRetrieverOutput (PyVal.list [m, s]) = normalizeRetrieverOutput (PyVal.tuple [m, s])) ∧
    normalizeRetrieverOutput (PyVal.list [PyVal.dict ["name"], PyVal.dict ["title"]])
        = Except.ok ([PyVal.str "name"], [PyVal.str "title"]) ∧
    normalizeRetrieverOutput (PyVal.list [PyVal.dict ["name"], PyVal.dict ["title"]])
        ≠ Except.ok ([PyVal.dict ["name"], PyVal.dict ["title"]], []) := by
  refine ⟨fun m s => rfl, rfl, ?_⟩
  intro h
  simp [normalizeRetrieverOutput, slotToList, pyToList] at h

/-- C8: an ask-mode request whose ranking stage yields zero ranked
records produces a success envelope — status "ok", no error object — and
the payload answer is the literal string "No relevant results found.". -/
theorem runAskPipeline_no_results (rid : String) (mds : List Record) (sims : List Val)
    (intent : Option String) (explainTop : RankedDoc → Except String String)
    (h : (scoreDocuments mds sims intent).ranked = []) :
    (runAskPipeline rid (Except.ok (mds, sims)) intent explainTop).status = "ok" ∧
    (runAskPipeline rid (Except.ok (mds, sims)) intent explainTop).error = Option.none ∧
    (runAskPipeline rid (Except.ok (mds, sims)) intent explainTop).payload.answer
      = "No relevant results found." := by
  simp [runAskPipeline, h]

/-- Witness for C8 at the empty retrieval batch. -/
theorem runAskPipeline_no_results_witness :
    (scoreDocuments [] [] Option.none).ranked = [] ∧
    ((runAskPipeline "r1" (Except.ok ([], [])) Option.none
        (fun _ => Except.ok "fine")).status = "ok" ∧
     (runAskPipeline "r1" (Except.ok ([], [])) Option.none
        (fun _ => Except.ok "fine")).error = Option.none ∧
     (runAskPipeline "r1" (Except.ok ([], [])) Option.none
        (fun _ => Except.ok "fine")).payload.answer = "No relevant results found.") :=
  ⟨rfl, runAskPipeline_no_results "r1" [] [] Option.none (fun _ => Except.ok "fine") rfl⟩

/-- C9: when ranking succeeds with at least one record and the
explanation call raises, the exception is caught locally, its error text
becomes the explanation string (and the answer) in the payload, and the
response still has status "ok" with no top-level error. -/
theorem runAskPipeline_explain_degraded (rid : String) (mds : List Record) (sims : List Val)
    (intent : Option String) (explainTop : RankedDoc → Except String String)
    (top : RankedDoc) (rest : List RankedDoc) (e : String)
    (hr : (scoreDocuments mds sims intent).ranked = top :: rest)
    (he : explainTop top = Except.error e) :
    (runAskPipeline rid (Except.ok (mds, sims)) intent explainTop).status = "ok" ∧
    (runAskPipeline rid (Except.ok (mds, sims)) intent explainTop).error = Option.none ∧
    (runAskPipeline rid (Except.ok (mds, sims)) intent explainTop).payload.explanation = some e ∧
    (runAskPipeline rid (Except.ok (mds, sims)) intent explainTop).payload.answer = e := by
  simp [runAskPipeline, hr, he]

/-- Witness for C9 at a one-candidate batch whose explanation generator
fails with the message "boom". -/
theorem runAskPipeline_explain_degraded_witness :
    (scoreDocuments [[]] [] Option.none).ranked
        = [{ id := Val.str "doc_0", similarity := 1 / 2, doc_quality := 1 / 2,
             recency := 1 / 2, popularity := 1 / 2, hybrid_score := 1 / 2, metadata := [] }] ∧
    ((runAskPipeline "r1" (Except.ok ([[]], [])) Option.none
        (fun _ => Except.error "boom")).status = "ok" ∧
     (runAskPipeline "r1" (Except.ok ([[]], [])) Option.none
        (fun _ => Except.error "boom")).error = Option.none ∧
     (runAskPipeline "r1" (Except.ok ([[]], [])) Option.none
        (fun _ => Except.error "boom")).payload.explanation = some "boom" ∧
     (runAskPipeline "r1" (Except.ok ([[]], [])) Option.none
        (fun _ => Except.error "boom")).payload.answer = "boom") :=
  ⟨by decide,
   runAskPipeline_explain_degraded "r1" [[]] [] Option.none (fun _ => Except.error "boom")
     { id := Val.str "doc_0", similarity := 1 / 2, doc_quality := 1 / 2,
       recency := 1 / 2, popularity := 1 / 2, hybrid_score := 1 / 2, metadata := [] }
     [] "boom" (by decide) rfl⟩

end ApiRec


